import Mathlib

/-!
Verification development for the preconceive deck-picker backend
(src/app.py).  The Python source is shallowly embedded: pure helpers
(`extract_colors_raw`, `order_colors`, `build_deck_url`) become Lean
functions; the paginated fetch loop of `fetch_all_decks` becomes a
recursion whose extra `fuel` argument is always `11 - i` (the loop
counter `i` already bounds the iteration count at 11, so the recursion
is structurally decreasing in `fuel`); the `/pick` request handler
becomes a function from explicit state (catalog cache, per-client rate
windows), a clock value, request arguments, an upstream oracle and a
random index to a response together with the successor state.
Exceptions are modelled with `Except`; a `KeyError` escaping the
handler is modelled by the dedicated response constructor `pyError`.
-/

namespace Preconceive

/-- A value that can sit inside the upstream `colors` mapping: an
integer count, a string, JSON null, or anything else (on which the
Python conversion `int(...)` raises and the code substitutes 0). -/
inductive CVal where
  | vInt (n : Int)
  | vStr (s : String)
  | vNone
  | vOther
deriving DecidableEq, Repr

/-- The `colors` field of a deck record: either a mapping from
single-letter color codes to counts, or some non-mapping value. -/
inductive ColorsField where
  | dict (m : List (Char × CVal))
  | nonDict
deriving DecidableEq, Repr

/-- The `size` field value of a deck record: an integer, or some other
JSON value (which compares unequal to 100). -/
inductive SizeVal where
  | intV (n : Int)
  | otherV
deriving DecidableEq, Repr

/-- One upstream deck record, restricted to the fields the code reads.
`none` in a field means the key is absent from the JSON object (for
`id`, it also covers a JSON-null value, since `dict.get` returns
`None` in both cases and the code only tests `is None`). -/
structure Deck where
  id : Option Int
  name : Option String
  featured : Option String
  colors : Option ColorsField
  size : Option SizeVal
deriving DecidableEq, Repr

instance : Inhabited Deck := ⟨⟨none, none, none, none, none⟩⟩

/-- One page of the upstream listing API: `data.get("results", [])`
and `data.get("next", None)`. -/
structure Page where
  results : List Deck
  next : Option String
deriving DecidableEq, Repr

/-- Errors raised inside an upstream HTTP roundtrip:
`resp.raise_for_status()` raises `requests.HTTPError`, network
failures and timeouts raise other `requests.RequestException`s. -/
inductive UpErr where
  | httpError
  | requestError
deriving DecidableEq, Repr

/-- Errors that can escape `fetch_all_decks`: the two upstream error
kinds plus the `KeyError` raised by `deck['size']` on a record without
a `size` key. -/
inductive FetchErr where
  | httpError
  | requestError
  | keyError
deriving DecidableEq, Repr

/-- The upstream service, as an oracle from a URL to a page or an
HTTP-level error. -/
abbrev Upstream := String → Except UpErr Page

/-! ### Python string helpers -/

/-- Python `str.upper()` (ASCII range, which covers all inputs the
code feeds it). -/
def pyUpper (s : String) : String := ⟨s.data.map Char.toUpper⟩

/-- Python `str.lower()` (ASCII range). -/
def pyLower (s : String) : String := ⟨s.data.map Char.toLower⟩

/-- Python `str.strip()`: drop leading and trailing whitespace. -/
def pyStrip (s : String) : String :=
  ⟨((s.data.dropWhile Char.isWhitespace).reverse.dropWhile Char.isWhitespace).reverse⟩

/-- Left-to-right, non-overlapping replacement of `pat` by `rep`, the
semantics of Python `str.replace`.  The fuel is the length of the
remaining input; every step consumes at least one character, so the
initial fuel `s.length` never runs out. -/
def replaceAllAux (pat rep : List Char) : Nat → List Char → List Char
  | 0, s => s
  | _, [] => []
  | fuel + 1, c :: rest =>
      if pat.isPrefixOf (c :: rest) then
        rep ++ replaceAllAux pat rep fuel ((c :: rest).drop pat.length)
      else
        c :: replaceAllAux pat rep fuel rest

/-- Python `s.replace(pat, rep)` for a non-empty pattern. -/
def pyReplace (s pat rep : String) : String :=
  if pat.data = [] then s
  else ⟨replaceAllAux pat.data rep.data s.data.length s.data⟩

/-- Python `int(x)` on a value from the `colors` mapping: integers
pass through, strings are parsed, anything else raises (`none`). -/
def pyIntOf : CVal → Option Int
  | .vInt n => some n
  | .vStr s => s.toInt?
  | .vNone => none
  | .vOther => none

/-! ### Module-level constants (src/app.py lines 15-17) -/

def ARCHIDEKT_USER_URL (username : String) : String :=
  "https://archidekt.com/api/decks/v3/?ownerUsername=" ++ username

def ARCHIDEKT_DECK_URL (id : Int) : String :=
  "https://archidekt.com/decks/" ++ toString id

def ALLOWED_USERS : List String :=
  ["Archidekt_Precons", "jarnr", "pertrick", "Bowden1337", "jden007",
   "tolariancommunitycollege"]

/-! ### Catalog fetcher (src/app.py lines 20-51) -/

/-- The pagination loop of `fetch_all_decks`.  `i` is the source's
page counter; the loop breaks once `i > 10` after the increment, so at
most 11 pages are fetched.  `fuel` is maintained at `11 - i` and makes
the recursion structural; the `fuel = 0` row is unreachable from the
initial call `fetch_loop up 11 (some start_url) 0 []`. -/
def fetch_loop (up : Upstream) : Nat → Option String → Nat → List Deck → Except UpErr (List Deck)
  | _, none, _, decks => .ok decks
  | 0, some _, _, decks => .ok decks
  | fuel + 1, some url, i, decks =>
      if url = "" then .ok decks
      else
        match up url with
        | .error e => .error e
        | .ok page =>
            let decks2 := decks ++ page.results
            let i2 := i + 1
            if 10 < i2 then .ok decks2
            else fetch_loop up fuel page.next i2 decks2

/-- The test `deck['size'] == 100` of the final comprehension. -/
def size_is_100 (d : Deck) : Bool :=
  match d.size with
  | some sv => decide (sv = .intV 100)
  | none => false

/-- The final comprehension `[deck for deck in decks if deck['size'] == 100]`:
`deck['size']` raises `KeyError` at the first record without a `size`
key; otherwise the list is filtered to `size == 100`. -/
def sizeFilter : List Deck → Except FetchErr (List Deck)
  | [] => .ok []
  | d :: ds =>
      match d.size with
      | none => .error .keyError
      | some sv =>
          match sizeFilter ds with
          | .error e => .error e
          | .ok r => .ok (if sv = .intV 100 then d :: r else r)

/-- `fetch_all_decks(start_url)`: follow the pagination loop, then
filter the accumulated records by `size == 100`. -/
def fetch_all_decks (up : Upstream) (start_url : String) : Except FetchErr (List Deck) :=
  match fetch_loop up 11 (some start_url) 0 [] with
  | .error .httpError => .error .httpError
  | .error .requestError => .error .requestError
  | .ok decks => sizeFilter decks

/-! ### build_deck_url (src/app.py lines 54-58) -/

def build_deck_url (deck : Deck) : Option String :=
  match deck.id with
  | none => none
  | some deck_id => some (ARCHIDEKT_DECK_URL deck_id)

/-! ### Color classifier (src/app.py lines 61-79) -/

/-- `extract_colors_raw(deck)`: if `deck.get("colors")` is a dict, walk
the five canonical letters in order, read each count with
`int(colors_dict.get(key, 0))` (conversion failures count as 0), and
keep the letters with positive count; any non-dict `colors` value
yields the empty list. -/
def extract_colors_raw (deck : Deck) : List Char :=
  match deck.colors with
  | some (.dict colors_dict) =>
      let ordered_keys : List Char := ['W', 'U', 'B', 'R', 'G']
      let result := ordered_keys.filter fun key =>
        decide (0 < ((pyIntOf ((colors_dict.lookup key).getD (.vInt 0))).getD 0))
      if result.isEmpty then [] else result
  | _ => []

/-! ### Color orderer (src/app.py lines 82-128) -/

def base_order : List Char := ['W', 'U', 'B', 'R', 'G']

def order2 : List (List Char) :=
  [['W','U'], ['U','B'], ['B','R'], ['R','G'], ['G','W'],
   ['W','B'], ['U','R'], ['B','G'], ['R','W'], ['G','U']]

def order3 : List (List Char) :=
  [['W','U','B'], ['U','B','R'], ['B','R','G'], ['R','G','W'], ['G','W','U'],
   ['W','B','G'], ['U','R','W'], ['B','G','U'], ['R','W','B'], ['G','U','R']]

def order4 : List (List Char) :=
  [['W','U','B','R'], ['U','B','R','G'], ['B','R','G','W'],
   ['R','G','W','U'], ['G','W','U','B']]

/-- `pick_from_orders(target_set, sequences)`: first table entry whose
letter set equals the target set. -/
def pick_from_orders (target_set : Finset Char) (sequences : List (List Char)) :
    Option (List Char) :=
  sequences.find? fun seq => decide (seq.toFinset = target_set)

/-- Fallback branch of `order_colors`: base W,U,B,R,G order filtered
by membership. -/
def order_fallback (color_set : Finset Char) : List Char :=
  base_order.filter fun c => decide (c ∈ color_set)

/-- The body of `order_colors` as a function of `set(colors)`.  The
sequential `if len(color_set) == k` tests of the source are mutually
exclusive, and a falsy `picked` (only `None` can occur) falls through
to the final fallback.  For a singleton set, `[next(iter(color_set))]`
is its unique element. -/
def order_colors_core (color_set : Finset Char) : List Char :=
  if color_set = ∅ then []
  else if color_set.card = 1 then color_set.sort (· ≤ ·)
  else if color_set.card = 2 then
    match pick_from_orders color_set order2 with
    | some picked => picked
    | none => order_fallback color_set
  else if color_set.card = 3 then
    match pick_from_orders color_set order3 with
    | some picked => picked
    | none => order_fallback color_set
  else if color_set.card = 4 then
    match pick_from_orders color_set order4 with
    | some picked => picked
    | none => order_fallback color_set
  else if color_set.card = 5 then ['W', 'U', 'B', 'R', 'G']
  else order_fallback color_set

/-- `order_colors(colors)` first forms `color_set = set(colors)` and
then only ever consults that set. -/
def order_colors (colors : List Char) : List Char :=
  order_colors_core colors.toFinset

/-! ### The /pick handler (src/app.py lines 131-241) -/

def CACHE_TTL_SECONDS : Int := 300
def RATE_LIMIT_WINDOW : Int := 60
def RATE_LIMIT_MAX : Nat := 30

/-- One entry of `cache_by_user`: the deck snapshot and the fetch
timestamp. -/
structure CacheEntry where
  decks : List Deck
  ts : Int
deriving DecidableEq, Repr

/-- `cache_by_user`, as a map from username to entry. -/
abbrev CacheMap := String → Option CacheEntry

/-- `requests_by_ip`, a defaultdict from client id to the window of
recent request timestamps (oldest first). -/
abbrev WindowMap := String → List Int

/-- Point update of a string-keyed map. -/
def updateMap {α : Type} (m : String → α) (k : String) (v : α) : String → α :=
  fun k2 => if k2 = k then v else m k2

/-- The process-wide mutable state touched by `pick`. -/
structure PickState where
  cache : CacheMap
  windows : WindowMap

/-- The `while q and (now - q[0]) > RATE_LIMIT_WINDOW: q.popleft()`
loop: drop old entries from the front, stopping at the first entry
within the window. -/
def pruneOld (now : Int) : List Int → List Int
  | [] => []
  | t :: ts => if RATE_LIMIT_WINDOW < now - t then pruneOld now ts else t :: ts

/-- The distinct responses `pick` can produce.  `pyError` stands for an
exception (the uncaught `KeyError`) propagating out of the handler. -/
inductive PickResp where
  | tooManyRequests
  | invalidUsername
  | invalidFilterType
  | invalidColors
  | upstreamError
  | noDecksFound
  | missingDeckId
  | ok (url : String) (title : String) (image : Option String) (colors : List Char)
  | pyError
deriving DecidableEq, Repr

/-- Result of one `pick` call: the response, the successor state, and
whether `fetch_all_decks` was invoked. -/
structure PickOut where
  resp : PickResp
  state : PickState
  fetchCalled : Bool

/-- The inner helper `deck_colors` of `pick`. -/
def deck_colors (deck : Deck) : List Char :=
  order_colors (extract_colors_raw deck)

/-- Lines 218-222: filter the catalog by the requested colors (`exact`
= set equality, else subset), then fall back to the whole catalog when
the filtered pool is empty. -/
def candidate_pool (all_decks : List Deck) (filter_type : String) (colors : Finset Char) :
    List Deck :=
  let filtered :=
    if filter_type = "exact" then
      all_decks.filter fun d => decide ((deck_colors d).toFinset = colors)
    else
      all_decks.filter fun d => decide ((deck_colors d).toFinset ⊆ colors)
  if filtered = [] then all_decks else filtered

/-- Line 229-231: the displayed title, with every occurrence of
" - jarcon" removed, surrounding whitespace stripped, and a fixed
placeholder for a blank result. -/
def deck_title_of (name : Option String) : String :=
  let deck_title := pyStrip (pyReplace (name.getD "") " - jarcon" "")
  if deck_title = "" then "Deck Name Not Found" else deck_title

/-- Lines 211-241 of `pick`, from the resolved catalog onwards: 404 on
an empty catalog, filter and fall back, choose `decks_pool[randIdx %
len]`, 500 if the chosen record has no id, else the JSON projection. -/
def handle_catalog (all_decks : List Deck) (filter_type : String) (colors : Finset Char)
    (randIdx : Nat) : PickResp :=
  if all_decks = [] then .noDecksFound
  else
    let decks_pool := candidate_pool all_decks filter_type colors
    let chosen := decks_pool.getD (randIdx % decks_pool.length) default
    match build_deck_url chosen with
    | none => .missingDeckId
    | some deck_url =>
        .ok deck_url (deck_title_of chosen.name) chosen.featured (deck_colors chosen)

/-- Line 182: `request.args.get("username", "Archidekt_Precons").strip()`. -/
def req_username (username_arg : Option String) : String :=
  pyStrip (username_arg.getD "Archidekt_Precons")

/-- Line 187: `request.args.get("filter_type", "subset").lower()`. -/
def req_filter (filter_type_arg : Option String) : String :=
  pyLower (filter_type_arg.getD "subset")

/-- Line 191: `set(request.args.get("colors", "WUBRG").upper())`. -/
def req_colors (colors_arg : Option String) : Finset Char :=
  (pyUpper (colors_arg.getD "WUBRG")).data.toFinset

/-- The `/pick` handler.  `up` is the upstream oracle, `now` the value
of `time()`, `ip` the client identity, the three `Option String`
arguments the raw query parameters (absent = `none`), and `randIdx`
resolves `random.choice` as an index into the pool. -/
def pick (st : PickState) (up : Upstream) (now : Int) (ip : String)
    (username_arg filter_type_arg colors_arg : Option String) (randIdx : Nat) : PickOut :=
  let q := pruneOld now (st.windows ip)
  if RATE_LIMIT_MAX ≤ q.length then
    ⟨.tooManyRequests, ⟨st.cache, updateMap st.windows ip q⟩, false⟩
  else
    let q2 := q ++ [now]
    let windows := updateMap st.windows ip q2
    let username := req_username username_arg
    if username ∈ ALLOWED_USERS then
      let api_url := ARCHIDEKT_USER_URL username
      let filter_type := req_filter filter_type_arg
      if filter_type = "exact" ∨ filter_type = "subset" then
        let colors : Finset Char := req_colors colors_arg
        if colors ⊆ ({'W', 'U', 'B', 'R', 'G'} : Finset Char) then
          let fetchBranch : PickOut :=
            match fetch_all_decks up api_url with
            | .error .httpError => ⟨.upstreamError, ⟨st.cache, windows⟩, true⟩
            | .error .requestError => ⟨.upstreamError, ⟨st.cache, windows⟩, true⟩
            | .error .keyError => ⟨.pyError, ⟨st.cache, windows⟩, true⟩
            | .ok all_decks =>
                ⟨handle_catalog all_decks filter_type colors randIdx,
                 ⟨updateMap st.cache username (some ⟨all_decks, now⟩), windows⟩, true⟩
          match st.cache username with
          | some cached =>
              if now - cached.ts < CACHE_TTL_SECONDS then
                ⟨handle_catalog cached.decks filter_type colors randIdx,
                 ⟨st.cache, windows⟩, false⟩
              else fetchBranch
          | none => fetchBranch
        else ⟨.invalidColors, ⟨st.cache, windows⟩, false⟩
      else ⟨.invalidFilterType, ⟨st.cache, windows⟩, false⟩
    else ⟨.invalidUsername, ⟨st.cache, windows⟩, false⟩

/-! ### Decidable equality for `Except` results -/

instance {ε α : Type} [DecidableEq ε] [DecidableEq α] : DecidableEq (Except ε α) :=
  fun x y =>
    match x, y with
    | .error a, .error b =>
        if h : a = b then .isTrue (by rw [h]) else .isFalse (by simp [h])
    | .ok a, .ok b =>
        if h : a = b then .isTrue (by rw [h]) else .isFalse (by simp [h])
    | .error _, .ok _ => .isFalse (fun h => Except.noConfusion h)
    | .ok _, .error _ => .isFalse (fun h => Except.noConfusion h)

/-! ### Concrete test fixtures used by the claim theorems -/

/-- A well-formed commander-size deck with a given id on page `n` of
the mock chain. -/
def chain_deck (n : Int) : Deck := ⟨some n, none, none, none, some (.intV 100)⟩

/-- The page URLs of the mock chain: `"p0"`, `"p1"`, ... -/
def chain_us (k : Nat) : String := "p" ++ toString k

/-- The page contents of the mock chain: one deck per page. -/
def chain_rs (k : Nat) : List Deck := [chain_deck (k : Int)]

/-- A mock upstream presenting a page chain of more than 10 hops,
`p0 → p1 → ... → p10 → p11 → ...`, each page holding one deck (pages
past `p10` are never reached by the fetch loop). -/
def chain_up : Upstream := fun u =>
  if u = "p0" then .ok ⟨chain_rs 0, some "p1"⟩
  else if u = "p1" then .ok ⟨chain_rs 1, some "p2"⟩
  else if u = "p2" then .ok ⟨chain_rs 2, some "p3"⟩
  else if u = "p3" then .ok ⟨chain_rs 3, some "p4"⟩
  else if u = "p4" then .ok ⟨chain_rs 4, some "p5"⟩
  else if u = "p5" then .ok ⟨chain_rs 5, some "p6"⟩
  else if u = "p6" then .ok ⟨chain_rs 6, some "p7"⟩
  else if u = "p7" then .ok ⟨chain_rs 7, some "p8"⟩
  else if u = "p8" then .ok ⟨chain_rs 8, some "p9"⟩
  else if u = "p9" then .ok ⟨chain_rs 9, some "p10"⟩
  else if u = "p10" then .ok ⟨chain_rs 10, some "p11"⟩
  else if u = "p11" then .ok ⟨chain_rs 11, some "p12"⟩
  else .error .requestError

/-- An upstream that always fails; used where the upstream must not be
consulted. -/
def dead_up : Upstream := fun _ => .error .requestError

/-- The colors mapping of the worked classifier example,
`{W: 3, U: 0, B: 2}`. -/
def example_colors : List (Char × CVal) := [('W', .vInt 3), ('U', .vInt 0), ('B', .vInt 2)]

/-- A deck record carrying the example colors mapping. -/
def example_deck : Deck := ⟨some 1, none, none, some (.dict example_colors), none⟩

/-- A catalog member (`size == 100`) without an `id` key. -/
def no_id_deck : Deck := ⟨none, none, none, none, some (.intV 100)⟩

/-- State whose cache holds a fresh snapshot for `jarnr` consisting of
the id-less deck only. -/
def no_id_state : PickState :=
  ⟨fun u => if u = "jarnr" then some ⟨[no_id_deck], 0⟩ else none, fun _ => []⟩

/-- A fully well-formed deck record. -/
def good_deck : Deck :=
  ⟨some 42, some "Alpha Strike - jarcon", some "img.png",
   some (.dict [('W', .vInt 3), ('U', .vInt 0), ('B', .vInt 2)]), some (.intV 100)⟩

/-- State whose cache holds a fresh snapshot for `jarnr` consisting of
the well-formed deck. -/
def good_state : PickState :=
  ⟨fun u => if u = "jarnr" then some ⟨[good_deck], 0⟩ else none, fun _ => []⟩

/-- The state after `n` identical `/pick` calls from client `c` at
time 0 against `good_state` (each a cache hit for `jarnr`). -/
def rate_iter : Nat → PickState
  | 0 => good_state
  | n + 1 => (pick (rate_iter n) dead_up 0 "c" (some "jarnr") none none 0).state

/-- A catalog member missing its `size` key. -/
def sizeless_deck : Deck := ⟨some 7, none, none, none, none⟩

/-- An upstream whose single page contains a record without a `size`
key. -/
def key_up : Upstream := fun _ => .ok ⟨[sizeless_deck], none⟩

/-- Fresh process state: empty cache, empty rate windows. -/
def empty_state : PickState := ⟨fun _ => none, fun _ => []⟩

/-! ## Helper lemmas -/

theorem if_isEmpty_self {α : Type} (l : List α) :
    (if l.isEmpty then ([] : List α) else l) = l := by
  cases l <;> simp

theorem pruneOld_length_le (now : Int) (q : List Int) :
    (pruneOld now q).length ≤ q.length := by
  induction q with
  | nil => simp [pruneOld]
  | cons t ts ih =>
      simp only [pruneOld]
      split
      · exact Nat.le_succ_of_le ih
      · exact Nat.le_refl _

theorem fetch_loop_none (up : Upstream) (fuel i : Nat) (decks : List Deck) :
    fetch_loop up fuel none i decks = .ok decks := by
  cases fuel <;> simp [fetch_loop]

theorem fetch_loop_step (up : Upstream) (fuel : Nat) (url : String) (onext : Option String)
    (res : List Deck) (i : Nat) (decks : List Deck)
    (hne : url ≠ "") (hup : up url = .ok ⟨res, onext⟩) (hi : i < 10) :
    fetch_loop up (fuel + 1) (some url) i decks =
      fetch_loop up fuel onext (i + 1) (decks ++ res) := by
  have h1 : ¬ (10 < i + 1) := by omega
  simp [fetch_loop, hup, hne, h1]

theorem fetch_loop_break (up : Upstream) (fuel : Nat) (url : String) (onext : Option String)
    (res : List Deck) (decks : List Deck)
    (hne : url ≠ "") (hup : up url = .ok ⟨res, onext⟩) :
    fetch_loop up (fuel + 1) (some url) 10 decks = .ok (decks ++ res) := by
  simp [fetch_loop, hup, hne]

theorem sizeFilter_ok (ds : List Deck) (h : ∀ d ∈ ds, d.size ≠ none) :
    sizeFilter ds = .ok (ds.filter size_is_100) := by
  induction ds with
  | nil => simp [sizeFilter]
  | cons d ds ih =>
      cases hd : d.size with
      | none => exact absurd hd (h d (by simp))
      | some sv =>
          have ih2 := ih (fun x hx => h x (by simp [hx]))
          by_cases hsv : sv = SizeVal.intV 100 <;>
            simp [sizeFilter, hd, ih2, List.filter_cons, size_is_100, hsv]

theorem sizeFilter_keyError (ds : List Deck) (h : ∃ d ∈ ds, d.size = none) :
    sizeFilter ds = .error .keyError := by
  induction ds with
  | nil => simp at h
  | cons d ds ih =>
      cases hd : d.size with
      | none => simp [sizeFilter, hd]
      | some sv =>
          obtain ⟨x, hx, hsz⟩ := h
          rcases List.mem_cons.mp hx with rfl | hx2
          · rw [hd] at hsz; cases hsz
          · simp [sizeFilter, hd, ih ⟨x, hx2, hsz⟩]

theorem candidate_pool_subset (all_decks : List Deck) (ft : String) (cs : Finset Char) :
    ∀ d ∈ candidate_pool all_decks ft cs, d ∈ all_decks := by
  intro d hd
  simp only [candidate_pool] at hd
  split at hd <;> split at hd
  all_goals first | exact hd | exact (List.mem_filter.mp hd).1

theorem candidate_pool_ne_nil (all_decks : List Deck) (ft : String) (cs : Finset Char)
    (h : all_decks ≠ []) : candidate_pool all_decks ft cs ≠ [] := by
  simp only [candidate_pool]
  split <;> split
  all_goals first | exact h | assumption

theorem getD_mod_mem {α : Type} [Inhabited α] (l : List α) (n : Nat) (h : l ≠ []) :
    l.getD (n % l.length) default ∈ l := by
  have hlen : 0 < l.length := List.length_pos.mpr h
  have hlt : n % l.length < l.length := Nat.mod_lt _ hlen
  rw [List.getD_eq_getElem?_getD, List.getElem?_eq_getElem hlt]
  exact List.getElem_mem hlt

theorem handle_catalog_ne_tooMany (ds : List Deck) (ft : String) (cs : Finset Char)
    (idx : Nat) : handle_catalog ds ft cs idx ≠ .tooManyRequests := by
  simp only [handle_catalog]
  split
  · simp
  · split <;> simp

theorem candidate_pool_exact_def (all_decks : List Deck) (cs : Finset Char) :
    candidate_pool all_decks "exact" cs =
      (if all_decks.filter (fun d => decide ((deck_colors d).toFinset = cs)) = []
       then all_decks
       else all_decks.filter (fun d => decide ((deck_colors d).toFinset = cs))) := by
  simp [candidate_pool]

theorem candidate_pool_subset_def (all_decks : List Deck) (cs : Finset Char) :
    candidate_pool all_decks "subset" cs =
      (if all_decks.filter (fun d => decide ((deck_colors d).toFinset ⊆ cs)) = []
       then all_decks
       else all_decks.filter (fun d => decide ((deck_colors d).toFinset ⊆ cs))) := by
  simp [candidate_pool]

/-! ## Claim theorems -/

/-- C1 counterexample: against a page chain that exceeds 10 hops,
`fetch_all_decks` does not stop after the 10th fetch — the loop breaks
only once the counter has passed 10, i.e. after the 11th fetch, so the
accumulated result holds 11 pages of decks, not 10. -/
theorem C1_pagination_counterexample :
    fetch_all_decks chain_up "p0" =
      .ok [chain_deck 0, chain_deck 1, chain_deck 2, chain_deck 3, chain_deck 4, chain_deck 5,
           chain_deck 6, chain_deck 7, chain_deck 8, chain_deck 9, chain_deck 10] ∧
    (fetch_all_decks chain_up "p0").map List.length ≠ .ok 10 := by
  constructor
  · decide
  · decide

/-- C1 amended: `fetch_all_decks` follows `next` links and stops when
`next` is absent/null or after the 11th fetch; for every upstream
chain exceeding 10 hops it stops after the 11th fetch and returns the
pages accumulated so far, filtered to `size == 100` (given each record
carries a `size` key), without raising an error. -/
theorem C1_pagination_amended :
    (∀ (up : Upstream) (us : Nat → String) (rs : Nat → List Deck),
        (∀ k, k ≤ 10 → us k ≠ "" ∧ up (us k) = .ok ⟨rs k, some (us (k + 1))⟩) →
        (∀ d ∈ rs 0 ++ rs 1 ++ rs 2 ++ rs 3 ++ rs 4 ++ rs 5 ++ rs 6 ++ rs 7 ++ rs 8 ++
               rs 9 ++ rs 10, d.size ≠ none) →
        fetch_all_decks up (us 0) =
          .ok ((rs 0 ++ rs 1 ++ rs 2 ++ rs 3 ++ rs 4 ++ rs 5 ++ rs 6 ++ rs 7 ++ rs 8 ++
                rs 9 ++ rs 10).filter size_is_100)) ∧
    (∀ (up : Upstream) (u : String) (r : List Deck),
        u ≠ "" → up u = .ok ⟨r, none⟩ → (∀ d ∈ r, d.size ≠ none) →
        fetch_all_decks up u = .ok (r.filter size_is_100)) := by
  constructor
  · intro up us rs H Hsz
    have h0 := H 0 (by norm_num)
    have h1 := H 1 (by norm_num)
    have h2 := H 2 (by norm_num)
    have h3 := H 3 (by norm_num)
    have h4 := H 4 (by norm_num)
    have h5 := H 5 (by norm_num)
    have h6 := H 6 (by norm_num)
    have h7 := H 7 (by norm_num)
    have h8 := H 8 (by norm_num)
    have h9 := H 9 (by norm_num)
    have h10 := H 10 (by norm_num)
    norm_num at h0 h1 h2 h3 h4 h5 h6 h7 h8 h9 h10
    have L : fetch_loop up 11 (some (us 0)) 0 [] =
        .ok ([] ++ rs 0 ++ rs 1 ++ rs 2 ++ rs 3 ++ rs 4 ++ rs 5 ++ rs 6 ++ rs 7 ++ rs 8 ++
             rs 9 ++ rs 10) := by
      calc fetch_loop up 11 (some (us 0)) 0 []
          = fetch_loop up 10 (some (us 1)) 1 ([] ++ rs 0) :=
            fetch_loop_step up 10 (us 0) (some (us 1)) (rs 0) 0 [] h0.1 h0.2 (by norm_num)
        _ = fetch_loop up 9 (some (us 2)) 2 ([] ++ rs 0 ++ rs 1) :=
            fetch_loop_step up 9 (us 1) (some (us 2)) (rs 1) 1 _ h1.1 h1.2 (by norm_num)
        _ = fetch_loop up 8 (some (us 3)) 3 ([] ++ rs 0 ++ rs 1 ++ rs 2) :=
            fetch_loop_step up 8 (us 2) (some (us 3)) (rs 2) 2 _ h2.1 h2.2 (by norm_num)
        _ = fetch_loop up 7 (some (us 4)) 4 ([] ++ rs 0 ++ rs 1 ++ rs 2 ++ rs 3) :=
            fetch_loop_step up 7 (us 3) (some (us 4)) (rs 3) 3 _ h3.1 h3.2 (by norm_num)
        _ = fetch_loop up 6 (some (us 5)) 5 ([] ++ rs 0 ++ rs 1 ++ rs 2 ++ rs 3 ++ rs 4) :=
            fetch_loop_step up 6 (us 4) (some (us 5)) (rs 4) 4 _ h4.1 h4.2 (by norm_num)
        _ = fetch_loop up 5 (some (us 6)) 6
              ([] ++ rs 0 ++ rs 1 ++ rs 2 ++ rs 3 ++ rs 4 ++ rs 5) :=
            fetch_loop_step up 5 (us 5) (some (us 6)) (rs 5) 5 _ h5.1 h5.2 (by norm_num)
        _ = fetch_loop up 4 (some (us 7)) 7
              ([] ++ rs 0 ++ rs 1 ++ rs 2 ++ rs 3 ++ rs 4 ++ rs 5 ++ rs 6) :=
            fetch_loop_step up 4 (us 6) (some (us 7)) (rs 6) 6 _ h6.1 h6.2 (by norm_num)
        _ = fetch_loop up 3 (some (us 8)) 8
              ([] ++ rs 0 ++ rs 1 ++ rs 2 ++ rs 3 ++ rs 4 ++ rs 5 ++ rs 6 ++ rs 7) :=
            fetch_loop_step up 3 (us 7) (some (us 8)) (rs 7) 7 _ h7.1 h7.2 (by norm_num)
        _ = fetch_loop up 2 (some (us 9)) 9
              ([] ++ rs 0 ++ rs 1 ++ rs 2 ++ rs 3 ++ rs 4 ++ rs 5 ++ rs 6 ++ rs 7 ++ rs 8) :=
            fetch_loop_step up 2 (us 8) (some (us 9)) (rs 8) 8 _ h8.1 h8.2 (by norm_num)
        _ = fetch_loop up 1 (some (us 10)) 10
              ([] ++ rs 0 ++ rs 1 ++ rs 2 ++ rs 3 ++ rs 4 ++ rs 5 ++ rs 6 ++ rs 7 ++ rs 8 ++
               rs 9) :=
            fetch_loop_step up 1 (us 9) (some (us 10)) (rs 9) 9 _ h9.1 h9.2 (by norm_num)
        _ = .ok ([] ++ rs 0 ++ rs 1 ++ rs 2 ++ rs 3 ++ rs 4 ++ rs 5 ++ rs 6 ++ rs 7 ++ rs 8 ++
                 rs 9 ++ rs 10) :=
            fetch_loop_break up 0 (us 10) (some (us 11)) (rs 10) _ h10.1 h10.2
    have Lfa : fetch_all_decks up (us 0) =
        sizeFilter ([] ++ rs 0 ++ rs 1 ++ rs 2 ++ rs 3 ++ rs 4 ++ rs 5 ++ rs 6 ++ rs 7 ++
                    rs 8 ++ rs 9 ++ rs 10) := by
      simp only [fetch_all_decks]
      rw [L]
    rw [List.nil_append] at Lfa
    rw [Lfa]
    exact sizeFilter_ok _ Hsz
  · intro up u r hne hup hsz
    have L : fetch_loop up 11 (some u) 0 [] = .ok ([] ++ r) := by
      rw [fetch_loop_step up 10 u none r 0 [] hne hup (by norm_num), fetch_loop_none]
    have Lfa : fetch_all_decks up u = sizeFilter ([] ++ r) := by
      simp only [fetch_all_decks]
      rw [L]
    rw [List.nil_append] at Lfa
    rw [Lfa]
    exact sizeFilter_ok _ hsz

/-- Witness for C1 amended at the concrete mock chain. -/
theorem C1_pagination_amended_witness :
    fetch_all_decks chain_up (chain_us 0) =
      .ok ((chain_rs 0 ++ chain_rs 1 ++ chain_rs 2 ++ chain_rs 3 ++ chain_rs 4 ++ chain_rs 5 ++
            chain_rs 6 ++ chain_rs 7 ++ chain_rs 8 ++ chain_rs 9 ++
            chain_rs 10).filter size_is_100) :=
  C1_pagination_amended.1 chain_up chain_us chain_rs (by decide) (by decide)

/-- C2 counterexample: the catalog filter checks only `size == 100`,
so a record without an `id` can reach the candidate pool; a `/pick`
run that draws it returns the 500 missing-id response — the branch is
reachable. -/
theorem C2_pool_id_counterexample :
    no_id_deck.id = none ∧
    no_id_deck ∈ candidate_pool [no_id_deck] "subset" ({'W', 'U', 'B', 'R', 'G'} : Finset Char) ∧
    (pick no_id_state dead_up 0 "client" (some "jarnr") none none 0).resp = .missingDeckId := by
  exact ⟨rfl, by decide, by decide⟩

/-- C2 amended: `build_deck_url` resolves exactly for records with a
non-null `id`; membership in the pool does not guarantee this, but
whenever every catalog record has a non-null `id`, the chosen record
resolves and the 500 missing-id branch is not taken. -/
theorem C2_pool_id_amended :
    (∀ d : Deck, (build_deck_url d).isSome ↔ d.id.isSome) ∧
    (∀ (all_decks : List Deck) (ft : String) (cs : Finset Char) (idx : Nat),
        (∀ d ∈ all_decks, d.id.isSome) →
        handle_catalog all_decks ft cs idx ≠ .missingDeckId) := by
  constructor
  · intro d
    cases hd : d.id <;> simp [build_deck_url, hd]
  · intro all_decks ft cs idx h
    by_cases hne : all_decks = []
    · simp [handle_catalog, hne]
    · simp only [handle_catalog, if_neg hne]
      have hch : (candidate_pool all_decks ft cs).getD
          (idx % (candidate_pool all_decks ft cs).length) default ∈ all_decks :=
        candidate_pool_subset _ _ _ _ (getD_mod_mem _ _ (candidate_pool_ne_nil _ _ _ hne))
      obtain ⟨i, hi⟩ := Option.isSome_iff_exists.mp (h _ hch)
      simp only [List.getD_eq_getElem?_getD] at hi
      simp [build_deck_url, hi]

/-- Witness for C2 amended at a one-deck catalog with an id. -/
theorem C2_pool_id_amended_witness :
    handle_catalog [good_deck] "subset" ({'W', 'U', 'B', 'R', 'G'} : Finset Char) 0 ≠
      .missingDeckId :=
  C2_pool_id_amended.2 [good_deck] "subset" ({'W', 'U', 'B', 'R', 'G'} : Finset Char) 0
    (by decide)

/-- C5: the admission step of `pick` first prunes entries older than 60
seconds from the front of the client's window (on a sorted window this
drops exactly the old entries), denies with 429 and no append iff the
pruned window holds at least 30 entries, otherwise appends `now` and
admits; a window at most 30 long stays at most 30 long; and from a
fresh window, 30 calls within one window are allowed and the 31st is
denied. -/
theorem C5_rate_limiter :
    (∀ (now : Int) (q : List Int), q.Sorted (· ≤ ·) →
        pruneOld now q = q.filter (fun t => decide (now - t ≤ RATE_LIMIT_WINDOW))) ∧
    (∀ (st : PickState) (up : Upstream) (now : Int) (ip : String)
        (ua fa ca : Option String) (idx : Nat),
        (RATE_LIMIT_MAX ≤ (pruneOld now (st.windows ip)).length →
            pick st up now ip ua fa ca idx =
              ⟨.tooManyRequests,
               ⟨st.cache, updateMap st.windows ip (pruneOld now (st.windows ip))⟩, false⟩) ∧
        ((pruneOld now (st.windows ip)).length < RATE_LIMIT_MAX →
            (pick st up now ip ua fa ca idx).resp ≠ .tooManyRequests ∧
            (pick st up now ip ua fa ca idx).state.windows ip =
              pruneOld now (st.windows ip) ++ [now])) ∧
    (∀ (st : PickState) (up : Upstream) (now : Int) (ip : String)
        (ua fa ca : Option String) (idx : Nat),
        (st.windows ip).length ≤ RATE_LIMIT_MAX →
        ((pick st up now ip ua fa ca idx).state.windows ip).length ≤ RATE_LIMIT_MAX) ∧
    ((∀ n ∈ Finset.range 30,
        (pick (rate_iter n) dead_up 0 "c" (some "jarnr") none none 0).resp ≠
          .tooManyRequests) ∧
      (pick (rate_iter 30) dead_up 0 "c" (some "jarnr") none none 0).resp =
        .tooManyRequests) := by
  refine ⟨?_, ?_, ?_, by decide⟩
  · intro now q
    induction q with
    | nil => intro _; simp [pruneOld]
    | cons t ts ih =>
        intro hs
        rw [List.sorted_cons] at hs
        by_cases h : RATE_LIMIT_WINDOW < now - t
        · have hd : decide (now - t ≤ RATE_LIMIT_WINDOW) = false :=
            decide_eq_false (not_le.mpr h)
          simp only [pruneOld]
          rw [if_pos h, ih hs.2, List.filter_cons, hd, if_neg Bool.false_ne_true]
        · have hd : decide (now - t ≤ RATE_LIMIT_WINDOW) = true :=
            decide_eq_true (not_lt.mp h)
          have hfilter : ts.filter (fun b => decide (now - b ≤ RATE_LIMIT_WINDOW)) = ts :=
            List.filter_eq_self.mpr fun b hb =>
              decide_eq_true (le_trans (sub_le_sub_left (hs.1 b hb) now) (not_lt.mp h))
          simp only [pruneOld]
          rw [if_neg h, List.filter_cons, hd, if_pos rfl, hfilter]
  · intro st up now ip ua fa ca idx
    constructor
    · intro h
      simp [pick, h]
    · intro h
      have h2 : ¬ (RATE_LIMIT_MAX ≤ (pruneOld now (st.windows ip)).length) := Nat.not_le.mpr h
      constructor
      · simp only [pick]
        rw [if_neg h2]
        (repeat' split) <;> simp [handle_catalog_ne_tooMany]
      · simp only [pick]
        rw [if_neg h2]
        (repeat' split) <;> simp [updateMap]
  · intro st up now ip ua fa ca idx h
    by_cases hd : RATE_LIMIT_MAX ≤ (pruneOld now (st.windows ip)).length
    · simp only [pick]
      rw [if_pos hd]
      simp only [updateMap, if_pos rfl]
      exact le_trans (pruneOld_length_le now (st.windows ip)) h
    · have h2 : (pruneOld now (st.windows ip)).length < RATE_LIMIT_MAX := Nat.not_le.mp hd
      simp only [pick]
      rw [if_neg hd]
      have hlen : (pruneOld now (st.windows ip) ++ [now]).length ≤ RATE_LIMIT_MAX := by
        simp only [List.length_append, List.length_singleton]
        simp only [RATE_LIMIT_MAX] at h2 ⊢
        omega
      (repeat' split) <;> simpa [updateMap] using hlen

/-- Witness for C5: one admitted call keeps the window within the
limit. -/
theorem C5_rate_limiter_witness :
    ((pick good_state dead_up 0 "c" (some "jarnr") none none 0).state.windows "c").length ≤
      RATE_LIMIT_MAX :=
  C5_rate_limiter.2.2.1 good_state dead_up 0 "c" (some "jarnr") none none 0 (by decide)

/-- C6: for a valid admitted request, `pick` serves the cached catalog
iff a cache entry exists for the owner and is younger than 300
seconds (no fetch, no cache write); otherwise it fetches fresh and, on
success, overwrites the entry with the new snapshot and timestamp; an
expired entry behaves exactly like an absent one for reads. -/
theorem C6_cache_ttl :
    ∀ (st : PickState) (up : Upstream) (now : Int) (ip : String)
      (ua fa ca : Option String) (idx : Nat),
      (pruneOld now (st.windows ip)).length < RATE_LIMIT_MAX →
      req_username ua ∈ ALLOWED_USERS →
      (req_filter fa = "exact" ∨ req_filter fa = "subset") →
      req_colors ca ⊆ ({'W', 'U', 'B', 'R', 'G'} : Finset Char) →
      (∀ e, st.cache (req_username ua) = some e → now - e.ts < CACHE_TTL_SECONDS →
          pick st up now ip ua fa ca idx =
            ⟨handle_catalog e.decks (req_filter fa) (req_colors ca) idx,
             ⟨st.cache, updateMap st.windows ip (pruneOld now (st.windows ip) ++ [now])⟩,
             false⟩) ∧
      ((st.cache (req_username ua) = none ∨
          ∃ e, st.cache (req_username ua) = some e ∧ ¬ (now - e.ts < CACHE_TTL_SECONDS)) →
          (pick st up now ip ua fa ca idx).fetchCalled = true ∧
          ∀ ds, fetch_all_decks up (ARCHIDEKT_USER_URL (req_username ua)) = .ok ds →
            (pick st up now ip ua fa ca idx).state.cache (req_username ua) =
              some ⟨ds, now⟩ ∧
            (pick st up now ip ua fa ca idx).resp =
              handle_catalog ds (req_filter fa) (req_colors ca) idx) ∧
      (∀ e, st.cache (req_username ua) = some e → ¬ (now - e.ts < CACHE_TTL_SECONDS) →
          (pick st up now ip ua fa ca idx).resp =
            (pick ⟨updateMap st.cache (req_username ua) none, st.windows⟩ up now ip ua fa ca
                idx).resp ∧
          (pick st up now ip ua fa ca idx).fetchCalled =
            (pick ⟨updateMap st.cache (req_username ua) none, st.windows⟩ up now ip ua fa ca
                idx).fetchCalled) := by
  intro st up now ip ua fa ca idx hq hu hf hc
  have hq2 : ¬ (RATE_LIMIT_MAX ≤ (pruneOld now (st.windows ip)).length) := Nat.not_le.mpr hq
  refine ⟨?_, ?_, ?_⟩
  · intro e he hts
    simp only [pick, he, if_neg hq2, if_pos hu, if_pos hf, if_pos hc, if_pos hts]
  · intro hmiss
    rcases hmiss with hnone | ⟨e, he, hts⟩
    · constructor
      · simp only [pick, hnone, if_neg hq2, if_pos hu, if_pos hf, if_pos hc]
        split <;> rfl
      · intro ds hds
        simp only [pick, hnone, hds, if_neg hq2, if_pos hu, if_pos hf, if_pos hc]
        exact ⟨by simp [updateMap], by trivial⟩
    · constructor
      · simp only [pick, he, if_neg hq2, if_pos hu, if_pos hf, if_pos hc, if_neg hts]
        split <;> rfl
      · intro ds hds
        simp only [pick, he, hds, if_neg hq2, if_pos hu, if_pos hf, if_pos hc, if_neg hts]
        exact ⟨by simp [updateMap], by trivial⟩
  · intro e he hts
    constructor <;>
      · simp only [pick, he, if_neg hq2, if_pos hu, if_pos hf, if_pos hc, if_neg hts,
          updateMap, if_pos rfl]
        split <;> simp [*]

/-- Witness for C6: a fresh cache entry is served without fetching. -/
theorem C6_cache_ttl_witness :
    pick good_state dead_up 0 "c" (some "jarnr") none none 0 =
      ⟨handle_catalog [good_deck] (req_filter none) (req_colors none) 0,
       ⟨good_state.cache,
        updateMap good_state.windows "c" (pruneOld 0 (good_state.windows "c") ++ [0])⟩,
       false⟩ :=
  (C6_cache_ttl good_state dead_up 0 "c" (some "jarnr") none none 0 (by decide) (by decide)
      (by decide) (by decide)).1 ⟨[good_deck], 0⟩ (by decide) (by decide)

/-- C7: with `exact` the candidate pool is exactly the decks whose
computed color set equals the requested set, with `subset` exactly
those whose color set is contained in it; an empty filtered pool falls
back to the entire catalog, so a non-empty catalog always yields a
non-empty pool, the chosen deck lies in the catalog, and the filter
never produces a not-found or upstream-error response. -/
theorem C7_filter_fallback :
    ∀ (all_decks : List Deck) (cs : Finset Char) (ft : String) (idx : Nat),
      ((∃ d ∈ all_decks, (deck_colors d).toFinset = cs) →
          ∀ d, (d ∈ candidate_pool all_decks "exact" cs ↔
            (d ∈ all_decks ∧ (deck_colors d).toFinset = cs))) ∧
      ((∃ d ∈ all_decks, (deck_colors d).toFinset ⊆ cs) →
          ∀ d, (d ∈ candidate_pool all_decks "subset" cs ↔
            (d ∈ all_decks ∧ (deck_colors d).toFinset ⊆ cs))) ∧
      ((∀ d ∈ all_decks, ¬ ((deck_colors d).toFinset = cs)) →
          candidate_pool all_decks "exact" cs = all_decks) ∧
      ((∀ d ∈ all_decks, ¬ ((deck_colors d).toFinset ⊆ cs)) →
          candidate_pool all_decks "subset" cs = all_decks) ∧
      (all_decks ≠ [] →
          candidate_pool all_decks ft cs ≠ [] ∧
          (candidate_pool all_decks ft cs).getD
              (idx % (candidate_pool all_decks ft cs).length) default ∈ all_decks ∧
          handle_catalog all_decks ft cs idx ≠ .noDecksFound ∧
          handle_catalog all_decks ft cs idx ≠ .upstreamError) := by
  intro all_decks cs ft idx
  refine ⟨?_, ?_, ?_, ?_, ?_⟩
  · rintro ⟨d0, hd0, hp0⟩ d
    have hmem : d0 ∈ all_decks.filter (fun d => decide ((deck_colors d).toFinset = cs)) :=
      List.mem_filter.mpr ⟨hd0, by simp [hp0]⟩
    rw [candidate_pool_exact_def, if_neg (List.ne_nil_of_mem hmem)]
    simp [List.mem_filter]
  · rintro ⟨d0, hd0, hp0⟩ d
    have hmem : d0 ∈ all_decks.filter (fun d => decide ((deck_colors d).toFinset ⊆ cs)) :=
      List.mem_filter.mpr ⟨hd0, by simp [hp0]⟩
    rw [candidate_pool_subset_def, if_neg (List.ne_nil_of_mem hmem)]
    simp [List.mem_filter]
  · intro hall
    have hnil : all_decks.filter (fun d => decide ((deck_colors d).toFinset = cs)) = [] :=
      List.filter_eq_nil_iff.mpr fun d hd => by simpa using hall d hd
    rw [candidate_pool_exact_def, if_pos hnil]
  · intro hall
    have hnil : all_decks.filter (fun d => decide ((deck_colors d).toFinset ⊆ cs)) = [] :=
      List.filter_eq_nil_iff.mpr fun d hd => by simpa using hall d hd
    rw [candidate_pool_subset_def, if_pos hnil]
  · intro hne
    refine ⟨candidate_pool_ne_nil _ _ _ hne,
            candidate_pool_subset _ _ _ _
              (getD_mod_mem _ _ (candidate_pool_ne_nil _ _ _ hne)), ?_, ?_⟩ <;>
      · simp only [handle_catalog, if_neg hne]
        split <;> simp

/-- Witness for C7 at the spec's example: `exact` with colors {W,U}
against a catalog with no such deck falls back to the full catalog. -/
theorem C7_filter_fallback_witness :
    candidate_pool [good_deck] "exact" ({'W', 'U'} : Finset Char) = [good_deck] :=
  (C7_filter_fallback [good_deck] ({'W', 'U'} : Finset Char) "exact" 0).2.2.1 (by decide)

/-- C8: an admitted request with an unknown owner, unrecognized filter
mode, or an invalid colors character gets a 400-class response, no
upstream fetch, and no cache write. -/
theorem C8_validation_no_side_effects :
    ∀ (st : PickState) (up : Upstream) (now : Int) (ip : String)
      (ua fa ca : Option String) (idx : Nat),
      (pruneOld now (st.windows ip)).length < RATE_LIMIT_MAX →
      (req_username ua ∉ ALLOWED_USERS ∨
        ¬ (req_filter fa = "exact" ∨ req_filter fa = "subset") ∨
        ¬ req_colors ca ⊆ ({'W', 'U', 'B', 'R', 'G'} : Finset Char)) →
      ((pick st up now ip ua fa ca idx).resp = .invalidUsername ∨
        (pick st up now ip ua fa ca idx).resp = .invalidFilterType ∨
        (pick st up now ip ua fa ca idx).resp = .invalidColors) ∧
      (pick st up now ip ua fa ca idx).fetchCalled = false ∧
      (pick st up now ip ua fa ca idx).state.cache = st.cache := by
  intro st up now ip ua fa ca idx hq hbad
  have hq2 : ¬ (RATE_LIMIT_MAX ≤ (pruneOld now (st.windows ip)).length) := Nat.not_le.mpr hq
  by_cases hu : req_username ua ∈ ALLOWED_USERS
  · by_cases hf : (req_filter fa = "exact" ∨ req_filter fa = "subset")
    · by_cases hc : req_colors ca ⊆ ({'W', 'U', 'B', 'R', 'G'} : Finset Char)
      · rcases hbad with h | h | h
        exacts [absurd hu h, absurd hf h, absurd hc h]
      · simp [pick, hq2, hu, hf, hc]
    · simp [pick, hq2, hu, hf]
  · simp [pick, hq2, hu]

/-- Witness for C8 at a rejected owner name. -/
theorem C8_validation_no_side_effects_witness :
    ((pick empty_state dead_up 0 "c" (some "nobody") none none 0).resp = .invalidUsername ∨
      (pick empty_state dead_up 0 "c" (some "nobody") none none 0).resp = .invalidFilterType ∨
      (pick empty_state dead_up 0 "c" (some "nobody") none none 0).resp = .invalidColors) ∧
    (pick empty_state dead_up 0 "c" (some "nobody") none none 0).fetchCalled = false ∧
    (pick empty_state dead_up 0 "c" (some "nobody") none none 0).state.cache =
      empty_state.cache :=
  C8_validation_no_side_effects empty_state dead_up 0 "c" (some "nobody") none none 0
    (by decide) (Or.inl (by decide))

/-- C9: a fetched record without a `size` key makes the final
comprehension of `fetch_all_decks` raise `KeyError`; the handler
catches only the two `requests` exception kinds, so such a request
propagates the exception instead of returning the 502 upstream-error
response (and performs no cache write). -/
theorem C9_missing_size_keyerror :
    (∀ (up : Upstream) (url : String) (ds : List Deck),
        fetch_loop up 11 (some url) 0 [] = .ok ds →
        (∃ d ∈ ds, d.size = none) →
        fetch_all_decks up url = .error .keyError) ∧
    (∀ (st : PickState) (up : Upstream) (now : Int) (ip : String)
        (ua fa ca : Option String) (idx : Nat),
        (pruneOld now (st.windows ip)).length < RATE_LIMIT_MAX →
        req_username ua ∈ ALLOWED_USERS →
        (req_filter fa = "exact" ∨ req_filter fa = "subset") →
        req_colors ca ⊆ ({'W', 'U', 'B', 'R', 'G'} : Finset Char) →
        (st.cache (req_username ua) = none ∨
          ∃ e, st.cache (req_username ua) = some e ∧ ¬ (now - e.ts < CACHE_TTL_SECONDS)) →
        fetch_all_decks up (ARCHIDEKT_USER_URL (req_username ua)) = .error .keyError →
        (pick st up now ip ua fa ca idx).resp = .pyError ∧
        (pick st up now ip ua fa ca idx).resp ≠ .upstreamError ∧
        (pick st up now ip ua fa ca idx).state.cache = st.cache) := by
  constructor
  · intro up url ds hloop hex
    simp only [fetch_all_decks]
    rw [hloop]
    exact sizeFilter_keyError ds hex
  · intro st up now ip ua fa ca idx hq hu hf hc hmiss hk
    have hq2 : ¬ (RATE_LIMIT_MAX ≤ (pruneOld now (st.windows ip)).length) := Nat.not_le.mpr hq
    rcases hmiss with hnone | ⟨e, he, hts⟩
    · simp only [pick, hnone, hk, if_neg hq2, if_pos hu, if_pos hf, if_pos hc]
      exact ⟨by trivial, by simp, by trivial⟩
    · simp only [pick, he, hk, if_neg hq2, if_pos hu, if_pos hf, if_pos hc, if_neg hts]
      exact ⟨by trivial, by simp, by trivial⟩

/-- Witness for C9 against the mock upstream with a sizeless record. -/
theorem C9_missing_size_keyerror_witness :
    (pick empty_state key_up 0 "c" (some "jarnr") none none 0).resp = .pyError ∧
    (pick empty_state key_up 0 "c" (some "jarnr") none none 0).resp ≠ .upstreamError ∧
    (pick empty_state key_up 0 "c" (some "jarnr") none none 0).state.cache =
      empty_state.cache :=
  C9_missing_size_keyerror.2 empty_state key_up 0 "c" (some "jarnr") none none 0 (by decide)
    (by decide) (by decide) (by decide) (Or.inl rfl) (by decide)

/-- C10: before applying the blank-title placeholder, the title of the
chosen deck is its name with every occurrence of " - jarcon" removed
and surrounding whitespace stripped; an absent, blank, or
reduced-to-empty name yields exactly "Deck Name Not Found". -/
theorem C10_title_normalization :
    (∀ (all_decks : List Deck) (ft : String) (cs : Finset Char) (idx : Nat) (u : String),
        all_decks ≠ [] →
        build_deck_url ((candidate_pool all_decks ft cs).getD
            (idx % (candidate_pool all_decks ft cs).length) default) = some u →
        handle_catalog all_decks ft cs idx =
          .ok u
            (deck_title_of ((candidate_pool all_decks ft cs).getD
                (idx % (candidate_pool all_decks ft cs).length) default).name)
            ((candidate_pool all_decks ft cs).getD
                (idx % (candidate_pool all_decks ft cs).length) default).featured
            (deck_colors ((candidate_pool all_decks ft cs).getD
                (idx % (candidate_pool all_decks ft cs).length) default))) ∧
    deck_title_of none = "Deck Name Not Found" ∧
    (∀ s : String, pyStrip (pyReplace s " - jarcon" "") = "" →
        deck_title_of (some s) = "Deck Name Not Found") ∧
    (∀ s : String, pyStrip (pyReplace s " - jarcon" "") ≠ "" →
        deck_title_of (some s) = pyStrip (pyReplace s " - jarcon" "")) ∧
    deck_title_of (some "  Foo - jarcon  ") = "Foo" ∧
    deck_title_of (some "A - jarcon B - jarcon") = "A B" ∧
    deck_title_of (some " - jarcon") = "Deck Name Not Found" ∧
    deck_title_of (some "   ") = "Deck Name Not Found" := by
  refine ⟨?_, by decide, ?_, ?_, by decide, by decide, by decide, by decide⟩
  · intro all_decks ft cs idx u hne hurl
    simp only [handle_catalog, if_neg hne]
    rw [hurl]
  · intro s h
    simp [deck_title_of, h]
  · intro s h
    simp [deck_title_of, h]

/-- Witness for C10 on a name that survives normalization. -/
theorem C10_title_normalization_witness :
    deck_title_of (some "Hi") = pyStrip (pyReplace "Hi" " - jarcon" "") :=
  C10_title_normalization.2.2.2.1 "Hi" (by decide)

/-- C3: for every color set of size 2, 3, or 4 drawn from {W,U,B,R,G},
`order_colors` returns one of the fixed table sequences, a permutation
of the input set; the result depends only on the set of the input (so
the same set always yields the identical sequence); the empty set
yields the empty sequence and the full five-color set yields exactly
[W,U,B,R,G]. -/
theorem C3_order_colors_canonical :
    (∀ l ∈ base_order.sublists, 2 ≤ l.length → l.length ≤ 4 →
        order_colors l ∈ order2 ++ order3 ++ order4 ∧ (order_colors l).Perm l) ∧
    (∀ l1 l2 : List Char, l1.toFinset = l2.toFinset → order_colors l1 = order_colors l2) ∧
    order_colors [] = [] ∧
    order_colors ['W', 'U', 'B', 'R', 'G'] = ['W', 'U', 'B', 'R', 'G'] := by
  refine ⟨by decide, ?_, by decide, by decide⟩
  intro l1 l2 h
  unfold order_colors
  rw [h]

/-- Witness for C3 at the concrete pair {W,U}. -/
theorem C3_order_colors_canonical_witness :
    order_colors ['W', 'U'] ∈ order2 ++ order3 ++ order4 ∧
      (order_colors ['W', 'U']).Perm ['W', 'U'] :=
  C3_order_colors_canonical.1 ['W', 'U'] (by decide) (by decide) (by decide)

/-- C4: when the `colors` field is a mapping, `extract_colors_raw`
returns, in the fixed priority order W,U,B,R,G, exactly the letters
whose count parses as an integer greater than 0 (missing or unparsable
counts acting as 0, without error); a non-mapping `colors` yields the
empty list; and {W: 3, U: 0, B: 2} yields [W, B]. -/
theorem C4_extract_colors_spec :
    (∀ (deck : Deck) (m : List (Char × CVal)), deck.colors = some (.dict m) →
        ∀ k : Char, (k ∈ extract_colors_raw deck ↔
          (k ∈ base_order ∧
            ∃ n : Int, pyIntOf ((m.lookup k).getD (.vInt 0)) = some n ∧ 0 < n))) ∧
    (∀ deck : Deck, (extract_colors_raw deck).Sublist base_order) ∧
    (∀ deck : Deck, deck.colors = none ∨ deck.colors = some .nonDict →
        extract_colors_raw deck = []) ∧
    extract_colors_raw example_deck = ['W', 'B'] := by
  refine ⟨?_, ?_, ?_, by decide⟩
  · intro deck m hm k
    simp only [extract_colors_raw, hm]
    rw [if_isEmpty_self]
    simp only [List.mem_filter, decide_eq_true_eq, base_order]
    cases hv : pyIntOf ((m.lookup k).getD (.vInt 0)) <;> simp [hv]
  · intro deck
    cases hc : deck.colors with
    | none => simp [extract_colors_raw, hc]
    | some cf =>
        cases cf with
        | nonDict => simp [extract_colors_raw, hc]
        | dict m =>
            simp only [extract_colors_raw, hc]
            rw [if_isEmpty_self]
            exact List.filter_sublist _
  · intro deck h
    rcases h with h | h <;> simp [extract_colors_raw, h]

/-- Witness for C4 at the worked example record and letter B. -/
theorem C4_extract_colors_spec_witness :
    'B' ∈ extract_colors_raw example_deck ↔
      ('B' ∈ base_order ∧
        ∃ n : Int, pyIntOf ((example_colors.lookup 'B').getD (.vInt 0)) = some n ∧ 0 < n) :=
  C4_extract_colors_spec.1 example_deck example_colors rfl 'B'

end Preconceive
